import Mathlib

/-!
Verification of the instability-prediction engine of the comfast-neon-grid
repository (`useInstabilityPrediction`, the timestamp-windowed 15/5-minute
four-signal version).

The engine is a pure function of a `CriticalMetrics` bundle (four time series
of `(timestamp, value)` samples) and the invocation wall-clock time `now`.
We embed it shallowly: JS numbers become `ℚ` (all arithmetic in the scoring
function is exact on the rationals involved), epoch-millisecond timestamps
become `ℤ`, and the mutable `riskScore` / `factors` / `etaMinutes` locals
become explicit state passing through the per-signal blocks in source order.

Factor strings carry an interpolated numeric value in the source (for example
the average latency rendered to one decimal).  We model every factor as a
constructor of an inductive type `Factor` carrying the exact rational value
being rendered; the decimal rendering itself is presentation and not part of
any property below.  The recommendation strings are the source's literal
(Portuguese) UI strings; the spec consistently quotes English glosses of them.
-/

/-- A single metric sample: epoch-millisecond timestamp and numeric value. -/
structure MetricSample where
  timestamp : ℤ
  value : ℚ
deriving DecidableEq

/-- The four parallel time series consumed by the predictor. -/
structure CriticalMetrics where
  ping : List MetricSample
  latency : List MetricSample
  cpu : List MetricSample
  memory : List MetricSample
deriving DecidableEq

/-- Risk classification levels. -/
inductive RiskLevel where
  | low
  | medium
  | high
  | critical
deriving DecidableEq

/-- The contributing factors the engine can report, tagged with the numeric
value interpolated into the corresponding UI string (when there is one). -/
inductive Factor where
  | pingHighFailure
  | pingIntermittent
  | pingOccasional
  | pingConsecutive
  | latencyHighAvg (avg : ℚ)
  | latencyElevated (avg : ℚ)
  | latencySpikes (mx : ℚ)
  | latencyTrend
  | cpuCritical (avg : ℚ)
  | cpuHigh (avg : ℚ)
  | cpuSpikes (mx : ℚ)
  | memCritical (avg : ℚ)
  | memHigh (avg : ℚ)
deriving DecidableEq

/-- Result of one predictor invocation. -/
structure PredictionResult where
  riskLevel : RiskLevel
  riskScore : ℕ
  etaMinutes : Option ℕ
  factors : List Factor
  recommendation : String
  lastUpdate : ℤ
deriving DecidableEq

/-- The mutable locals of the scoring function, threaded through the blocks. -/
structure PredState where
  riskScore : ℕ
  factors : List Factor
  etaMinutes : Option ℕ
deriving DecidableEq

/-- Initial state: `riskScore = 0`, no factors, no ETA. -/
def initState : PredState := ⟨0, [], none⟩

/-- Mean of the sample values, `reduce((sum,l) => sum + l.value, 0) / length`.
(Division by zero yields 0 in `ℚ`; every use site is guarded by non-emptiness
in the source.) -/
def meanValue (xs : List MetricSample) : ℚ :=
  (xs.map (fun s => s.value)).sum / (xs.length : ℚ)

/-- `Math.max(...xs.map(v))` for a non-empty list (the `[]` case is
unreachable behind the source's non-emptiness guards). -/
def maxValue (xs : List MetricSample) : ℚ :=
  match xs.map (fun s => s.value) with
  | [] => 0
  | v :: vs => vs.foldl max v

/-- JS `etaMinutes || d`: the current ETA if it is a truthy number (non-null
and non-zero), else `d`. -/
def etaOrDefault (eta : Option ℕ) (d : ℕ) : ℕ :=
  match eta with
  | none => d
  | some n => if n = 0 then d else n

/-- JS `etaMinutes ? Math.min(etaMinutes, v) : v`. -/
def etaMinUpdate (eta : Option ℕ) (v : ℕ) : Option ℕ :=
  match eta with
  | none => some v
  | some n => if n = 0 then some v else some (min n v)

/-- The 15-minute lookback cutoff, `now - 15 * 60 * 1000` milliseconds. -/
def window15 (now : ℤ) : ℤ := now - 15 * 60 * 1000

/-- The 5-minute lookback cutoff, `now - 5 * 60 * 1000` milliseconds. -/
def window5 (now : ℤ) : ℤ := now - 5 * 60 * 1000

/-- Window filter: the samples with `timestamp >= cutoff`. -/
def recentOf (xs : List MetricSample) (cutoff : ℤ) : List MetricSample :=
  xs.filter (fun s => decide (cutoff ≤ s.timestamp))

/-- Ping failure rate over a sample list:
`filter(value === 0).length / length`. -/
def pingFailureRate (xs : List MetricSample) : ℚ :=
  ((xs.filter (fun p => decide (p.value = 0))).length : ℚ) / (xs.length : ℚ)

/-- The ping failure-rate ladder (source lines 304–318): fires inside the
`recentPing.length > 0` guard of `pingAnalysis`. -/
def pingRateStep (recentPing : List MetricSample) (st : PredState) : PredState :=
  if (0.5 : ℚ) ≤ pingFailureRate recentPing then
    { st with riskScore := st.riskScore + 60,
              factors := st.factors ++ [Factor.pingHighFailure],
              etaMinutes := some 2 }
  else if (0.3 : ℚ) ≤ pingFailureRate recentPing then
    { st with riskScore := st.riskScore + 40,
              factors := st.factors ++ [Factor.pingIntermittent],
              etaMinutes := some 5 }
  else if 0 < pingFailureRate recentPing then
    { st with riskScore := st.riskScore + 20,
              factors := st.factors ++ [Factor.pingOccasional] }
  else st

/-- The consecutive-failure check on the 5-minute window (source lines
321–330): last three samples of `veryRecentPing` all with value 0. -/
def pingConsecStep (veryRecentPing : List MetricSample) (st : PredState) : PredState :=
  if 3 ≤ veryRecentPing.length then
    if (veryRecentPing.drop (veryRecentPing.length - 3)).all (fun p => decide (p.value = 0)) then
      { st with riskScore := st.riskScore + 30,
                factors := st.factors ++ [Factor.pingConsecutive],
                etaMinutes := some (min (etaOrDefault st.etaMinutes 1) 1) }
    else st
  else st

/-- Ping analysis: both sub-steps run inside the `recentPing.length > 0`
guard, rate ladder first. -/
def pingAnalysis (recentPing veryRecentPing : List MetricSample) (st : PredState) : PredState :=
  if 0 < recentPing.length then
    pingConsecStep veryRecentPing (pingRateStep recentPing st)
  else st

/-- Latency average ladder (avg > 200 → +25 and ETA 10; avg > 100 → +15). -/
def latencyAvgStep (recentLatency : List MetricSample) (st : PredState) : PredState :=
  if 200 < meanValue recentLatency then
    { st with riskScore := st.riskScore + 25,
              factors := st.factors ++ [Factor.latencyHighAvg (meanValue recentLatency)],
              etaMinutes := etaMinUpdate st.etaMinutes 10 }
  else if 100 < meanValue recentLatency then
    { st with riskScore := st.riskScore + 15,
              factors := st.factors ++ [Factor.latencyElevated (meanValue recentLatency)] }
  else st

/-- Latency spike check (max > 500 → +20, no ETA). -/
def latencyMaxStep (recentLatency : List MetricSample) (st : PredState) : PredState :=
  if 500 < maxValue recentLatency then
    { st with riskScore := st.riskScore + 20,
              factors := st.factors ++ [Factor.latencySpikes (maxValue recentLatency)] }
  else st

/-- Increasing-latency trend check: with at least 5 samples, compare the mean
of the second half against 1.3 times the mean of the first half. -/
def latencyTrendStep (recentLatency : List MetricSample) (st : PredState) : PredState :=
  if 5 ≤ recentLatency.length then
    if meanValue (recentLatency.take (recentLatency.length / 2)) * (1.3 : ℚ) <
        meanValue (recentLatency.drop (recentLatency.length / 2)) then
      { st with riskScore := st.riskScore + 15,
                factors := st.factors ++ [Factor.latencyTrend],
                etaMinutes := etaMinUpdate st.etaMinutes 15 }
    else st
  else st

/-- Latency analysis: the three sub-steps, in source order, inside the
`recentLatency.length > 0` guard. -/
def latencyAnalysis (recentLatency : List MetricSample) (st : PredState) : PredState :=
  if 0 < recentLatency.length then
    latencyTrendStep recentLatency (latencyMaxStep recentLatency (latencyAvgStep recentLatency st))
  else st

/-- CPU average ladder (avg > 90 → +20 and ETA 20; avg > 80 → +10). -/
def cpuAvgStep (recentCpu : List MetricSample) (st : PredState) : PredState :=
  if 90 < meanValue recentCpu then
    { st with riskScore := st.riskScore + 20,
              factors := st.factors ++ [Factor.cpuCritical (meanValue recentCpu)],
              etaMinutes := etaMinUpdate st.etaMinutes 20 }
  else if 80 < meanValue recentCpu then
    { st with riskScore := st.riskScore + 10,
              factors := st.factors ++ [Factor.cpuHigh (meanValue recentCpu)] }
  else st

/-- CPU spike check (max > 95 → +15, no ETA). -/
def cpuMaxStep (recentCpu : List MetricSample) (st : PredState) : PredState :=
  if 95 < maxValue recentCpu then
    { st with riskScore := st.riskScore + 15,
              factors := st.factors ++ [Factor.cpuSpikes (maxValue recentCpu)] }
  else st

/-- CPU analysis inside the `recentCpu.length > 0` guard. -/
def cpuAnalysis (recentCpu : List MetricSample) (st : PredState) : PredState :=
  if 0 < recentCpu.length then
    cpuMaxStep recentCpu (cpuAvgStep recentCpu st)
  else st

/-- Memory analysis (source lines 389–402): guarded by `recentCpu.length > 0
&& memory.length > 0`; filters memory to the 15-minute window itself. -/
def memoryAnalysis (recentCpu memory : List MetricSample) (recent15min : ℤ)
    (st : PredState) : PredState :=
  if 0 < recentCpu.length ∧ 0 < memory.length then
    if 0 < (recentOf memory recent15min).length then
      if 90 < meanValue (recentOf memory recent15min) then
        { st with riskScore := st.riskScore + 15,
                  factors := st.factors ++ [Factor.memCritical (meanValue (recentOf memory recent15min))] }
      else if 85 < meanValue (recentOf memory recent15min) then
        { st with riskScore := st.riskScore + 8,
                  factors := st.factors ++ [Factor.memHigh (meanValue (recentOf memory recent15min))] }
      else st
    else st
  else st

/-- Risk-level ladder applied to the accumulated (pre-clamp) score. -/
def riskLevelOf (riskScore : ℕ) : RiskLevel :=
  if 80 ≤ riskScore then RiskLevel.critical
  else if 50 ≤ riskScore then RiskLevel.high
  else if 25 ≤ riskScore then RiskLevel.medium
  else RiskLevel.low

/-- Recommendation string chosen from the risk level (source UI strings). -/
def recommendationOf : RiskLevel → String
  | RiskLevel.critical => "AÇÃO IMEDIATA: Verificar conectividade e recursos do host"
  | RiskLevel.high => "Monitorar de perto e considerar manutenção preventiva"
  | RiskLevel.medium => "Acompanhar evolução das métricas"
  | RiskLevel.low => "Sistema operando normalmente"

/-- The degenerate zero-risk result returned for null metrics or an empty
ping series (the spec glosses the recommendation as "Awaiting data..."). -/
def awaitingDataResult (now : ℤ) : PredictionResult :=
  ⟨RiskLevel.low, 0, none, [], "Aguardando dados...", now⟩

/-- The full scoring state after the four signal analyses, for a non-degenerate
input. `now` is the wall-clock time read at invocation. -/
def mainState (m : CriticalMetrics) (now : ℤ) : PredState :=
  memoryAnalysis (recentOf m.cpu (window15 now)) m.memory (window15 now)
    (cpuAnalysis (recentOf m.cpu (window15 now))
      (latencyAnalysis (recentOf m.latency (window15 now))
        (pingAnalysis (recentOf m.ping (window15 now))
          (recentOf m.ping (window5 now)) initState)))

/-- The predictor: `useInstabilityPrediction` with the wall clock passed
explicitly. Returns the degenerate result when `metrics` is null or its ping
series is empty; otherwise assembles the result from `mainState`, clamping
the score to 100. -/
def predict (metrics : Option CriticalMetrics) (now : ℤ) : PredictionResult :=
  match metrics with
  | none => awaitingDataResult now
  | some m =>
    if m.ping.length = 0 then awaitingDataResult now
    else
      ⟨riskLevelOf (mainState m now).riskScore, min (mainState m now).riskScore 100,
        (mainState m now).etaMinutes, (mainState m now).factors,
        recommendationOf (riskLevelOf (mainState m now).riskScore), now⟩

/-! ### Per-rule ETA proposals and per-rule score contributions

The following definitions restate, rule by rule, the trigger condition of
each scoring rule together with the ETA it proposes and the score it adds.
They are read off the same source branches as the step functions above and
are used to state and prove the aggregate properties (minimum-ETA tracking,
score decomposition, monotonicity). -/

/-- Minimum of two optional naturals, `none` acting as plus infinity. -/
def ominN : Option ℕ → Option ℕ → Option ℕ
  | none, b => b
  | some x, none => some x
  | some x, some y => some (min x y)

/-- Minimum of a list of naturals, `none` for the empty list. -/
def minListN : List ℕ → Option ℕ
  | [] => none
  | v :: vs => ominN (some v) (minListN vs)

/-- An optional ETA that is not the (unreachable) truthiness edge case
`some 0`: every held value is positive. -/
def EtaPos (eta : Option ℕ) : Prop := ∀ n, eta = some n → 0 < n

/-- Trigger condition of the consecutive-ping-failure rule: at least 3
samples in the 5-minute window and the last three all with value 0. -/
def pingConsecFires (veryRecentPing : List MetricSample) : Prop :=
  3 ≤ veryRecentPing.length ∧
    (veryRecentPing.drop (veryRecentPing.length - 3)).all
      (fun p => decide (p.value = 0)) = true

instance (vp : List MetricSample) : Decidable (pingConsecFires vp) := by
  unfold pingConsecFires
  infer_instance

/-- Trigger condition of the latency-trend rule: at least 5 samples and the
second-half mean exceeding 1.3 times the first-half mean. -/
def latencyTrendFires (recentLatency : List MetricSample) : Prop :=
  5 ≤ recentLatency.length ∧
    meanValue (recentLatency.take (recentLatency.length / 2)) * (1.3 : ℚ) <
      meanValue (recentLatency.drop (recentLatency.length / 2))

instance (rl : List MetricSample) : Decidable (latencyTrendFires rl) := by
  unfold latencyTrendFires
  infer_instance

/-- ETA proposed by the ping failure-rate ladder. -/
def pingRateEtas (recentPing : List MetricSample) : List ℕ :=
  if (0.5 : ℚ) ≤ pingFailureRate recentPing then [2]
  else if (0.3 : ℚ) ≤ pingFailureRate recentPing then [5]
  else []

/-- ETA proposed by the consecutive-failure rule. -/
def pingConsecEtas (veryRecentPing : List MetricSample) : List ℕ :=
  if pingConsecFires veryRecentPing then [1] else []

/-- ETA proposed by the average-latency rule. -/
def latencyAvgEtas (recentLatency : List MetricSample) : List ℕ :=
  if 200 < meanValue recentLatency then [10] else []

/-- ETA proposed by the latency-trend rule. -/
def latencyTrendEtas (recentLatency : List MetricSample) : List ℕ :=
  if latencyTrendFires recentLatency then [15] else []

/-- ETA proposed by the average-CPU rule. -/
def cpuAvgEtas (recentCpu : List MetricSample) : List ℕ :=
  if 90 < meanValue recentCpu then [20] else []

/-- All ETAs proposed by rules that trigger on the given input, in rule
evaluation order.  In the degenerate (null metrics / empty ping) case no
rule is evaluated, so nothing is proposed. -/
def proposedEtas (metrics : Option CriticalMetrics) (now : ℤ) : List ℕ :=
  match metrics with
  | none => []
  | some m =>
    if m.ping.length = 0 then []
    else
      (if 0 < (recentOf m.ping (window15 now)).length then
        pingRateEtas (recentOf m.ping (window15 now)) ++
          pingConsecEtas (recentOf m.ping (window5 now))
      else []) ++
      (if 0 < (recentOf m.latency (window15 now)).length then
        latencyAvgEtas (recentOf m.latency (window15 now)) ++
          latencyTrendEtas (recentOf m.latency (window15 now))
      else []) ++
      (if 0 < (recentOf m.cpu (window15 now)).length then
        cpuAvgEtas (recentOf m.cpu (window15 now))
      else [])

/-- Score added by the ping failure-rate ladder. -/
def pingRateScore (recentPing : List MetricSample) : ℕ :=
  if (0.5 : ℚ) ≤ pingFailureRate recentPing then 60
  else if (0.3 : ℚ) ≤ pingFailureRate recentPing then 40
  else if 0 < pingFailureRate recentPing then 20
  else 0

/-- Score added by the consecutive-failure rule. -/
def pingConsecScore (veryRecentPing : List MetricSample) : ℕ :=
  if pingConsecFires veryRecentPing then 30 else 0

/-- Score added by the average-latency ladder. -/
def latencyAvgScore (recentLatency : List MetricSample) : ℕ :=
  if 200 < meanValue recentLatency then 25
  else if 100 < meanValue recentLatency then 15
  else 0

/-- Score added by the latency-spike rule. -/
def latencyMaxScore (recentLatency : List MetricSample) : ℕ :=
  if 500 < maxValue recentLatency then 20 else 0

/-- Score added by the latency-trend rule. -/
def latencyTrendScore (recentLatency : List MetricSample) : ℕ :=
  if latencyTrendFires recentLatency then 15 else 0

/-- Score added by the average-CPU ladder. -/
def cpuAvgScore (recentCpu : List MetricSample) : ℕ :=
  if 90 < meanValue recentCpu then 20
  else if 80 < meanValue recentCpu then 10
  else 0

/-- Score added by the CPU-spike rule. -/
def cpuMaxScore (recentCpu : List MetricSample) : ℕ :=
  if 95 < maxValue recentCpu then 15 else 0

/-- Score added by the whole ping signal (both rules, behind the
non-emptiness guard). -/
def pingScore (recentPing veryRecentPing : List MetricSample) : ℕ :=
  if 0 < recentPing.length then
    pingRateScore recentPing + pingConsecScore veryRecentPing
  else 0

/-- Score added by the whole latency signal. -/
def latencyScore (recentLatency : List MetricSample) : ℕ :=
  if 0 < recentLatency.length then
    latencyAvgScore recentLatency + latencyMaxScore recentLatency +
      latencyTrendScore recentLatency
  else 0

/-- Score added by the whole CPU signal. -/
def cpuScore (recentCpu : List MetricSample) : ℕ :=
  if 0 < recentCpu.length then cpuAvgScore recentCpu + cpuMaxScore recentCpu
  else 0

/-- Score added by the memory signal (guarded by CPU-window and raw-memory
non-emptiness, then by filtered-memory non-emptiness). -/
def memoryScore (recentCpu memory : List MetricSample) (recent15min : ℤ) : ℕ :=
  if 0 < recentCpu.length ∧ 0 < memory.length then
    if 0 < (recentOf memory recent15min).length then
      if 90 < meanValue (recentOf memory recent15min) then 15
      else if 85 < meanValue (recentOf memory recent15min) then 8
      else 0
    else 0
  else 0

/-- Signal index of a factor, in rule evaluation order: ping = 0,
latency = 1, cpu = 2, memory = 3. -/
def Factor.signalIdx : Factor → ℕ
  | pingHighFailure => 0
  | pingIntermittent => 0
  | pingOccasional => 0
  | pingConsecutive => 0
  | latencyHighAvg _ => 1
  | latencyElevated _ => 1
  | latencySpikes _ => 1
  | latencyTrend => 1
  | cpuCritical _ => 2
  | cpuHigh _ => 2
  | cpuSpikes _ => 2
  | memCritical _ => 3
  | memHigh _ => 3

/-- Modelled from the spec: the classification thresholds read as a function
of the returned (clamped) risk score — `≥ 80` critical, `≥ 50` high, `≥ 25`
medium, else low.  Used to compare against the code, which applies the same
ladder to the pre-clamp score. -/
def classifySpec (riskScore : ℕ) : RiskLevel :=
  if 80 ≤ riskScore then RiskLevel.critical
  else if 50 ≤ riskScore then RiskLevel.high
  else if 25 ≤ riskScore then RiskLevel.medium
  else RiskLevel.low

/-- Example input: non-null metrics whose ping series is empty. -/
def exEmptyPing : CriticalMetrics :=
  ⟨[], [⟨0, 1⟩], [⟨0, 2⟩], [⟨0, 3⟩]⟩

/-- Example input: 10 ping samples inside the 5-minute window of
`now = 900000`, 7 failures with the last three consecutive. -/
def exPingCritical : CriticalMetrics :=
  { ping := [⟨610000, 0⟩, ⟨611000, 0⟩, ⟨612000, 0⟩, ⟨613000, 1⟩, ⟨614000, 1⟩,
             ⟨615000, 1⟩, ⟨616000, 0⟩, ⟨617000, 0⟩, ⟨618000, 0⟩, ⟨619000, 0⟩],
    latency := [], cpu := [], memory := [] }

/-- Example input for monotonicity: 15 in-window ping samples, failure rate
3/15 = 0.2, with the last three samples all failures. -/
def exRate02Consec : CriticalMetrics :=
  { ping := [⟨610000, 1⟩, ⟨611000, 1⟩, ⟨612000, 1⟩, ⟨613000, 1⟩, ⟨614000, 1⟩,
             ⟨615000, 1⟩, ⟨616000, 1⟩, ⟨617000, 1⟩, ⟨618000, 1⟩, ⟨619000, 1⟩,
             ⟨620000, 1⟩, ⟨621000, 1⟩, ⟨622000, 0⟩, ⟨623000, 0⟩, ⟨624000, 0⟩],
    latency := [], cpu := [], memory := [] }

/-- Example input for monotonicity: 15 in-window ping samples, failure rate
6/15 = 0.4, with the last three samples all successes. -/
def exRate04NoConsec : CriticalMetrics :=
  { ping := [⟨610000, 0⟩, ⟨611000, 0⟩, ⟨612000, 0⟩, ⟨613000, 0⟩, ⟨614000, 0⟩,
             ⟨615000, 0⟩, ⟨616000, 1⟩, ⟨617000, 1⟩, ⟨618000, 1⟩, ⟨619000, 1⟩,
             ⟨620000, 1⟩, ⟨621000, 1⟩, ⟨622000, 1⟩, ⟨623000, 1⟩, ⟨624000, 1⟩],
    latency := [], cpu := [], memory := [] }

/-- Example input for monotonicity: 5 in-window ping samples, failure rate
1/5 = 0.2, consecutive-failure rule not firing. -/
def exRate02 : CriticalMetrics :=
  { ping := [⟨610000, 1⟩, ⟨611000, 1⟩, ⟨612000, 1⟩, ⟨613000, 1⟩, ⟨614000, 0⟩],
    latency := [], cpu := [], memory := [] }

/-- Example input for monotonicity: 5 in-window ping samples, failure rate
2/5 = 0.4, consecutive-failure rule not firing. -/
def exRate04 : CriticalMetrics :=
  { ping := [⟨610000, 0⟩, ⟨611000, 0⟩, ⟨612000, 1⟩, ⟨613000, 1⟩, ⟨614000, 1⟩],
    latency := [], cpu := [], memory := [] }

/-! ### Minimum-list and ETA bookkeeping lemmas -/

lemma ominN_none_right (a : Option ℕ) : ominN a none = a := by
  cases a <;> rfl

lemma ominN_assoc (a b c : Option ℕ) :
    ominN (ominN a b) c = ominN a (ominN b c) := by
  cases a <;> cases b <;> cases c <;> simp [ominN, min_assoc]

lemma minListN_append (l1 l2 : List ℕ) :
    minListN (l1 ++ l2) = ominN (minListN l1) (minListN l2) := by
  induction l1 with
  | nil => simp [minListN, ominN]
  | cons v vs ih => simp [minListN, ih, ominN_assoc]

lemma minListN_eq_none_iff (l : List ℕ) : minListN l = none ↔ l = [] := by
  cases l with
  | nil => simp [minListN]
  | cons v vs =>
    simp only [minListN]
    cases minListN vs <;> simp [ominN]

lemma minListN_spec (l : List ℕ) (v : ℕ) (h : minListN l = some v) :
    v ∈ l ∧ ∀ x ∈ l, v ≤ x := by
  induction l generalizing v with
  | nil => simp [minListN] at h
  | cons w ws ih =>
    rw [minListN] at h
    cases hws : minListN ws with
    | none =>
      rw [hws] at h
      simp only [ominN, Option.some.injEq] at h
      subst h
      have hnil : ws = [] := (minListN_eq_none_iff ws).mp hws
      subst hnil
      simp
    | some u =>
      rw [hws] at h
      simp only [ominN, Option.some.injEq] at h
      obtain ⟨hu_mem, hu_le⟩ := ih u hws
      constructor
      · rcases min_cases w u with ⟨h1, _⟩ | ⟨h1, _⟩
        · rw [← h, h1]; exact List.mem_cons_self _ _
        · rw [← h, h1]; exact List.mem_cons_of_mem _ hu_mem
      · intro x hx
        rcases List.mem_cons.mp hx with rfl | hx
        · rw [← h]; exact min_le_left _ _
        · calc v = min w u := h.symm
            _ ≤ u := min_le_right _ _
            _ ≤ x := hu_le x hx

lemma etaPos_none : EtaPos none := by
  intro n hn
  exact Option.noConfusion hn

lemma etaPos_some (v : ℕ) (hv : 0 < v) : EtaPos (some v) := by
  intro n hn
  have hvn := Option.some.inj hn
  omega

lemma etaMinUpdate_eq_ominN (o : Option ℕ) (v : ℕ) (h : EtaPos o) :
    etaMinUpdate o v = ominN o (some v) := by
  cases o with
  | none => rfl
  | some n =>
    have hn : 0 < n := h n rfl
    simp [etaMinUpdate, ominN, hn.ne']

lemma etaPos_etaMinUpdate (o : Option ℕ) (v : ℕ) (h : EtaPos o) (hv : 0 < v) :
    EtaPos (etaMinUpdate o v) := by
  cases o with
  | none =>
    intro n hn
    simp [etaMinUpdate] at hn
    omega
  | some k =>
    intro n hn
    have hk : 0 < k := h k rfl
    simp [etaMinUpdate, hk.ne'] at hn
    have hmin : 0 < min k v := lt_min hk hv
    omega

/-! ### ETA behavior of the ping blocks -/

lemma pingRateStep_eta (rp : List MetricSample) (st : PredState)
    (h : st.etaMinutes = none) :
    (pingRateStep rp st).etaMinutes = minListN (pingRateEtas rp) := by
  unfold pingRateStep pingRateEtas
  split_ifs <;> simp_all [minListN, ominN]

lemma pingRateStep_etaPos (rp : List MetricSample) (st : PredState)
    (h : EtaPos st.etaMinutes) :
    EtaPos (pingRateStep rp st).etaMinutes := by
  unfold pingRateStep
  split_ifs <;> first
    | exact h
    | (intro n hn; simp only [Option.some.injEq] at hn; omega)

lemma pingConsecStep_eta (vp : List MetricSample) (st : PredState)
    (h : EtaPos st.etaMinutes) :
    (pingConsecStep vp st).etaMinutes =
      ominN st.etaMinutes (minListN (pingConsecEtas vp)) := by
  unfold pingConsecStep pingConsecEtas pingConsecFires
  by_cases h3 : 3 ≤ vp.length
  · by_cases hall : (vp.drop (vp.length - 3)).all (fun p => decide (p.value = 0)) = true
    · simp only [h3, hall, and_self, if_true, if_pos]
      cases ho : st.etaMinutes with
      | none => simp [etaOrDefault, ominN, minListN]
      | some n =>
        have hn : 0 < n := h n ho
        simp [etaOrDefault, ominN, minListN, hn.ne']
    · simp [h3, hall, minListN, ominN_none_right]
  · simp [h3, minListN, ominN_none_right]

lemma pingConsecStep_etaPos (vp : List MetricSample) (st : PredState)
    (h : EtaPos st.etaMinutes) :
    EtaPos (pingConsecStep vp st).etaMinutes := by
  unfold pingConsecStep
  split_ifs <;> try exact h
  intro n hn
  simp only [Option.some.injEq] at hn
  have he : 0 < etaOrDefault st.etaMinutes 1 := by
    cases ho : st.etaMinutes with
    | none => simp [etaOrDefault]
    | some k => simp only [etaOrDefault]; split_ifs <;> omega
  have hmin : 0 < min (etaOrDefault st.etaMinutes 1) 1 := lt_min he (by omega)
  omega

lemma pingAnalysis_eta (rp vp : List MetricSample) (st : PredState)
    (h : st.etaMinutes = none) :
    (pingAnalysis rp vp st).etaMinutes =
      minListN (if 0 < rp.length then pingRateEtas rp ++ pingConsecEtas vp else []) := by
  unfold pingAnalysis
  split_ifs with hg
  · rw [minListN_append]
    have h0 : EtaPos st.etaMinutes := by rw [h]; exact etaPos_none
    have h1 := pingRateStep_eta rp st h
    have h1p := pingRateStep_etaPos rp st h0
    have h2 := pingConsecStep_eta vp _ h1p
    rw [h2, h1]
  · simp [minListN, h]

lemma pingAnalysis_etaPos (rp vp : List MetricSample) (st : PredState)
    (h : EtaPos st.etaMinutes) :
    EtaPos (pingAnalysis rp vp st).etaMinutes := by
  unfold pingAnalysis
  split_ifs with hg
  · exact pingConsecStep_etaPos _ _ (pingRateStep_etaPos _ _ h)
  · exact h

/-! ### ETA behavior of the latency, CPU and memory blocks -/

lemma latencyAvgStep_eta (rl : List MetricSample) (st : PredState)
    (h : EtaPos st.etaMinutes) :
    (latencyAvgStep rl st).etaMinutes =
      ominN st.etaMinutes (minListN (latencyAvgEtas rl)) := by
  unfold latencyAvgStep latencyAvgEtas
  split_ifs
  · simp [minListN, ominN_none_right, etaMinUpdate_eq_ominN st.etaMinutes 10 h]
  · simp [minListN, ominN_none_right]
  · simp [minListN, ominN_none_right]

lemma latencyAvgStep_etaPos (rl : List MetricSample) (st : PredState)
    (h : EtaPos st.etaMinutes) :
    EtaPos (latencyAvgStep rl st).etaMinutes := by
  unfold latencyAvgStep
  split_ifs <;> first
    | exact h
    | exact etaPos_etaMinUpdate st.etaMinutes 10 h (by omega)

lemma latencyMaxStep_eta (rl : List MetricSample) (st : PredState) :
    (latencyMaxStep rl st).etaMinutes = st.etaMinutes := by
  unfold latencyMaxStep
  split_ifs <;> rfl

lemma latencyTrendStep_eta (rl : List MetricSample) (st : PredState)
    (h : EtaPos st.etaMinutes) :
    (latencyTrendStep rl st).etaMinutes =
      ominN st.etaMinutes (minListN (latencyTrendEtas rl)) := by
  unfold latencyTrendStep latencyTrendEtas latencyTrendFires
  by_cases h5 : 5 ≤ rl.length
  · by_cases htr : meanValue (rl.take (rl.length / 2)) * (1.3 : ℚ) <
        meanValue (rl.drop (rl.length / 2))
    · simp only [h5, htr, and_self, if_true, if_pos]
      simp [minListN, ominN_none_right, etaMinUpdate_eq_ominN st.etaMinutes 15 h]
    · simp [h5, htr, minListN, ominN_none_right]
  · simp [h5, minListN, ominN_none_right]

lemma latencyTrendStep_etaPos (rl : List MetricSample) (st : PredState)
    (h : EtaPos st.etaMinutes) :
    EtaPos (latencyTrendStep rl st).etaMinutes := by
  unfold latencyTrendStep
  split_ifs <;> first
    | exact h
    | exact etaPos_etaMinUpdate st.etaMinutes 15 h (by omega)

lemma latencyAnalysis_eta (rl : List MetricSample) (st : PredState)
    (h : EtaPos st.etaMinutes) :
    (latencyAnalysis rl st).etaMinutes =
      ominN st.etaMinutes
        (minListN (if 0 < rl.length then latencyAvgEtas rl ++ latencyTrendEtas rl else [])) := by
  unfold latencyAnalysis
  split_ifs with hg
  · rw [minListN_append]
    have h1 := latencyAvgStep_eta rl st h
    have h1p := latencyAvgStep_etaPos rl st h
    have h2 := latencyMaxStep_eta rl (latencyAvgStep rl st)
    have h2p : EtaPos (latencyMaxStep rl (latencyAvgStep rl st)).etaMinutes := by
      rw [h2]; exact h1p
    have h3 := latencyTrendStep_eta rl _ h2p
    rw [h3, h2, h1, ominN_assoc]
  · simp [minListN, ominN_none_right]

lemma latencyAnalysis_etaPos (rl : List MetricSample) (st : PredState)
    (h : EtaPos st.etaMinutes) :
    EtaPos (latencyAnalysis rl st).etaMinutes := by
  unfold latencyAnalysis
  split_ifs with hg
  · have h1p := latencyAvgStep_etaPos rl st h
    have h2p : EtaPos (latencyMaxStep rl (latencyAvgStep rl st)).etaMinutes := by
      rw [latencyMaxStep_eta]; exact h1p
    exact latencyTrendStep_etaPos rl _ h2p
  · exact h

lemma cpuAvgStep_eta (rc : List MetricSample) (st : PredState)
    (h : EtaPos st.etaMinutes) :
    (cpuAvgStep rc st).etaMinutes = ominN st.etaMinutes (minListN (cpuAvgEtas rc)) := by
  unfold cpuAvgStep cpuAvgEtas
  split_ifs
  · simp [minListN, ominN_none_right, etaMinUpdate_eq_ominN st.etaMinutes 20 h]
  · simp [minListN, ominN_none_right]
  · simp [minListN, ominN_none_right]

lemma cpuAvgStep_etaPos (rc : List MetricSample) (st : PredState)
    (h : EtaPos st.etaMinutes) :
    EtaPos (cpuAvgStep rc st).etaMinutes := by
  unfold cpuAvgStep
  split_ifs <;> first
    | exact h
    | exact etaPos_etaMinUpdate st.etaMinutes 20 h (by omega)

lemma cpuMaxStep_eta (rc : List MetricSample) (st : PredState) :
    (cpuMaxStep rc st).etaMinutes = st.etaMinutes := by
  unfold cpuMaxStep
  split_ifs <;> rfl

lemma cpuAnalysis_eta (rc : List MetricSample) (st : PredState)
    (h : EtaPos st.etaMinutes) :
    (cpuAnalysis rc st).etaMinutes =
      ominN st.etaMinutes (minListN (if 0 < rc.length then cpuAvgEtas rc else [])) := by
  unfold cpuAnalysis
  split_ifs with hg
  · rw [cpuMaxStep_eta, cpuAvgStep_eta rc st h]
  · simp [minListN, ominN_none_right]

lemma cpuAnalysis_etaPos (rc : List MetricSample) (st : PredState)
    (h : EtaPos st.etaMinutes) :
    EtaPos (cpuAnalysis rc st).etaMinutes := by
  unfold cpuAnalysis
  split_ifs with hg
  · have h1p := cpuAvgStep_etaPos rc st h
    intro n hn
    rw [cpuMaxStep_eta] at hn
    exact h1p n hn
  · exact h

lemma memoryAnalysis_eta (rc mem : List MetricSample) (cutoff : ℤ) (st : PredState) :
    (memoryAnalysis rc mem cutoff st).etaMinutes = st.etaMinutes := by
  unfold memoryAnalysis
  split_ifs <;> rfl

/-! ### The accumulated ETA is the minimum of all proposed ETAs -/

lemma mainState_eta (m : CriticalMetrics) (now : ℤ) (h : ¬ m.ping.length = 0) :
    (mainState m now).etaMinutes = minListN (proposedEtas (some m) now) := by
  unfold mainState proposedEtas
  simp only [h, if_false, ite_false]
  rw [minListN_append, minListN_append]
  have hp := pingAnalysis_eta (recentOf m.ping (window15 now))
    (recentOf m.ping (window5 now)) initState rfl
  have hpp : EtaPos (pingAnalysis (recentOf m.ping (window15 now))
      (recentOf m.ping (window5 now)) initState).etaMinutes :=
    pingAnalysis_etaPos _ _ _ (by intro n hn; exact Option.noConfusion hn)
  have hl := latencyAnalysis_eta (recentOf m.latency (window15 now)) _ hpp
  have hlp := latencyAnalysis_etaPos (recentOf m.latency (window15 now)) _ hpp
  have hc := cpuAnalysis_eta (recentOf m.cpu (window15 now)) _ hlp
  rw [memoryAnalysis_eta, hc, hl, hp, ominN_assoc]

lemma predict_eta (metrics : Option CriticalMetrics) (now : ℤ) :
    (predict metrics now).etaMinutes = minListN (proposedEtas metrics now) := by
  cases metrics with
  | none => rfl
  | some m =>
    by_cases h : m.ping.length = 0
    · simp [predict, proposedEtas, h, awaitingDataResult, minListN]
    · simp only [predict, h, if_false, ite_false]
      exact mainState_eta m now h

/-! ### Score decomposition: each block adds its own contribution -/

lemma pingRateStep_score (rp : List MetricSample) (st : PredState) :
    (pingRateStep rp st).riskScore = st.riskScore + pingRateScore rp := by
  unfold pingRateStep pingRateScore
  split_ifs <;> simp

lemma pingConsecStep_score (vp : List MetricSample) (st : PredState) :
    (pingConsecStep vp st).riskScore = st.riskScore + pingConsecScore vp := by
  unfold pingConsecStep pingConsecScore pingConsecFires
  by_cases h3 : 3 ≤ vp.length
  · by_cases hall : (vp.drop (vp.length - 3)).all (fun p => decide (p.value = 0)) = true
    · simp [h3, hall]
    · simp [h3, hall]
  · simp [h3]

lemma pingAnalysis_score (rp vp : List MetricSample) (st : PredState) :
    (pingAnalysis rp vp st).riskScore = st.riskScore + pingScore rp vp := by
  unfold pingAnalysis pingScore
  split_ifs with hg
  · rw [pingConsecStep_score, pingRateStep_score, Nat.add_assoc]
  · simp

lemma latencyAvgStep_score (rl : List MetricSample) (st : PredState) :
    (latencyAvgStep rl st).riskScore = st.riskScore + latencyAvgScore rl := by
  unfold latencyAvgStep latencyAvgScore
  split_ifs <;> simp

lemma latencyMaxStep_score (rl : List MetricSample) (st : PredState) :
    (latencyMaxStep rl st).riskScore = st.riskScore + latencyMaxScore rl := by
  unfold latencyMaxStep latencyMaxScore
  split_ifs <;> simp

lemma latencyTrendStep_score (rl : List MetricSample) (st : PredState) :
    (latencyTrendStep rl st).riskScore = st.riskScore + latencyTrendScore rl := by
  unfold latencyTrendStep latencyTrendScore latencyTrendFires
  by_cases h5 : 5 ≤ rl.length
  · by_cases htr : meanValue (rl.take (rl.length / 2)) * (1.3 : ℚ) <
        meanValue (rl.drop (rl.length / 2))
    · simp [h5, htr]
    · simp [h5, htr]
  · simp [h5]

lemma latencyAnalysis_score (rl : List MetricSample) (st : PredState) :
    (latencyAnalysis rl st).riskScore = st.riskScore + latencyScore rl := by
  unfold latencyAnalysis latencyScore
  split_ifs with hg
  · rw [latencyTrendStep_score, latencyMaxStep_score, latencyAvgStep_score]
    omega
  · simp

lemma cpuAvgStep_score (rc : List MetricSample) (st : PredState) :
    (cpuAvgStep rc st).riskScore = st.riskScore + cpuAvgScore rc := by
  unfold cpuAvgStep cpuAvgScore
  split_ifs <;> simp

lemma cpuMaxStep_score (rc : List MetricSample) (st : PredState) :
    (cpuMaxStep rc st).riskScore = st.riskScore + cpuMaxScore rc := by
  unfold cpuMaxStep cpuMaxScore
  split_ifs <;> simp

lemma cpuAnalysis_score (rc : List MetricSample) (st : PredState) :
    (cpuAnalysis rc st).riskScore = st.riskScore + cpuScore rc := by
  unfold cpuAnalysis cpuScore
  split_ifs with hg
  · rw [cpuMaxStep_score, cpuAvgStep_score]
    omega
  · simp

lemma memoryAnalysis_score (rc mem : List MetricSample) (cutoff : ℤ) (st : PredState) :
    (memoryAnalysis rc mem cutoff st).riskScore = st.riskScore + memoryScore rc mem cutoff := by
  unfold memoryAnalysis memoryScore
  split_ifs <;> simp

lemma mainState_score (m : CriticalMetrics) (now : ℤ) :
    (mainState m now).riskScore =
      pingScore (recentOf m.ping (window15 now)) (recentOf m.ping (window5 now)) +
        latencyScore (recentOf m.latency (window15 now)) +
        cpuScore (recentOf m.cpu (window15 now)) +
        memoryScore (recentOf m.cpu (window15 now)) m.memory (window15 now) := by
  unfold mainState
  rw [memoryAnalysis_score, cpuAnalysis_score, latencyAnalysis_score, pingAnalysis_score]
  simp [initState]

/-! ### Factor decomposition: each block appends factors of its own signal -/

lemma pingRateStep_factors (rp : List MetricSample) (st : PredState) :
    ∃ fs, (pingRateStep rp st).factors = st.factors ++ fs ∧
      ∀ f ∈ fs, Factor.signalIdx f = 0 := by
  unfold pingRateStep
  split_ifs
  · exact ⟨[Factor.pingHighFailure], rfl, by simp [Factor.signalIdx]⟩
  · exact ⟨[Factor.pingIntermittent], rfl, by simp [Factor.signalIdx]⟩
  · exact ⟨[Factor.pingOccasional], rfl, by simp [Factor.signalIdx]⟩
  · exact ⟨[], by simp, by simp⟩

lemma pingConsecStep_factors (vp : List MetricSample) (st : PredState) :
    ∃ fs, (pingConsecStep vp st).factors = st.factors ++ fs ∧
      ∀ f ∈ fs, Factor.signalIdx f = 0 := by
  unfold pingConsecStep
  split_ifs
  · exact ⟨[Factor.pingConsecutive], rfl, by simp [Factor.signalIdx]⟩
  · exact ⟨[], by simp, by simp⟩
  · exact ⟨[], by simp, by simp⟩

lemma pingAnalysis_factors (rp vp : List MetricSample) (st : PredState) :
    ∃ fs, (pingAnalysis rp vp st).factors = st.factors ++ fs ∧
      ∀ f ∈ fs, Factor.signalIdx f = 0 := by
  unfold pingAnalysis
  split_ifs
  · obtain ⟨fs1, he1, hs1⟩ := pingRateStep_factors rp st
    obtain ⟨fs2, he2, hs2⟩ := pingConsecStep_factors vp (pingRateStep rp st)
    refine ⟨fs1 ++ fs2, ?_, ?_⟩
    · rw [he2, he1, List.append_assoc]
    · intro f hf
      rcases List.mem_append.mp hf with hf | hf
      · exact hs1 f hf
      · exact hs2 f hf
  · exact ⟨[], by simp, by simp⟩

lemma latencyAvgStep_factors (rl : List MetricSample) (st : PredState) :
    ∃ fs, (latencyAvgStep rl st).factors = st.factors ++ fs ∧
      ∀ f ∈ fs, Factor.signalIdx f = 1 := by
  unfold latencyAvgStep
  split_ifs
  · exact ⟨[Factor.latencyHighAvg (meanValue rl)], rfl, by simp [Factor.signalIdx]⟩
  · exact ⟨[Factor.latencyElevated (meanValue rl)], rfl, by simp [Factor.signalIdx]⟩
  · exact ⟨[], by simp, by simp⟩

lemma latencyMaxStep_factors (rl : List MetricSample) (st : PredState) :
    ∃ fs, (latencyMaxStep rl st).factors = st.factors ++ fs ∧
      ∀ f ∈ fs, Factor.signalIdx f = 1 := by
  unfold latencyMaxStep
  split_ifs
  · exact ⟨[Factor.latencySpikes (maxValue rl)], rfl, by simp [Factor.signalIdx]⟩
  · exact ⟨[], by simp, by simp⟩

lemma latencyTrendStep_factors (rl : List MetricSample) (st : PredState) :
    ∃ fs, (latencyTrendStep rl st).factors = st.factors ++ fs ∧
      ∀ f ∈ fs, Factor.signalIdx f = 1 := by
  unfold latencyTrendStep
  split_ifs
  · exact ⟨[Factor.latencyTrend], rfl, by simp [Factor.signalIdx]⟩
  · exact ⟨[], by simp, by simp⟩
  · exact ⟨[], by simp, by simp⟩

lemma latencyAnalysis_factors (rl : List MetricSample) (st : PredState) :
    ∃ fs, (latencyAnalysis rl st).factors = st.factors ++ fs ∧
      ∀ f ∈ fs, Factor.signalIdx f = 1 := by
  unfold latencyAnalysis
  split_ifs
  · obtain ⟨fs1, he1, hs1⟩ := latencyAvgStep_factors rl st
    obtain ⟨fs2, he2, hs2⟩ := latencyMaxStep_factors rl (latencyAvgStep rl st)
    obtain ⟨fs3, he3, hs3⟩ := latencyTrendStep_factors rl
      (latencyMaxStep rl (latencyAvgStep rl st))
    refine ⟨fs1 ++ fs2 ++ fs3, ?_, ?_⟩
    · rw [he3, he2, he1]
      simp [List.append_assoc]
    · intro f hf
      rcases List.mem_append.mp hf with hf | hf
      · rcases List.mem_append.mp hf with hf | hf
        · exact hs1 f hf
        · exact hs2 f hf
      · exact hs3 f hf
  · exact ⟨[], by simp, by simp⟩

lemma cpuAvgStep_factors (rc : List MetricSample) (st : PredState) :
    ∃ fs, (cpuAvgStep rc st).factors = st.factors ++ fs ∧
      ∀ f ∈ fs, Factor.signalIdx f = 2 := by
  unfold cpuAvgStep
  split_ifs
  · exact ⟨[Factor.cpuCritical (meanValue rc)], rfl, by simp [Factor.signalIdx]⟩
  · exact ⟨[Factor.cpuHigh (meanValue rc)], rfl, by simp [Factor.signalIdx]⟩
  · exact ⟨[], by simp, by simp⟩

lemma cpuMaxStep_factors (rc : List MetricSample) (st : PredState) :
    ∃ fs, (cpuMaxStep rc st).factors = st.factors ++ fs ∧
      ∀ f ∈ fs, Factor.signalIdx f = 2 := by
  unfold cpuMaxStep
  split_ifs
  · exact ⟨[Factor.cpuSpikes (maxValue rc)], rfl, by simp [Factor.signalIdx]⟩
  · exact ⟨[], by simp, by simp⟩

lemma cpuAnalysis_factors (rc : List MetricSample) (st : PredState) :
    ∃ fs, (cpuAnalysis rc st).factors = st.factors ++ fs ∧
      ∀ f ∈ fs, Factor.signalIdx f = 2 := by
  unfold cpuAnalysis
  split_ifs
  · obtain ⟨fs1, he1, hs1⟩ := cpuAvgStep_factors rc st
    obtain ⟨fs2, he2, hs2⟩ := cpuMaxStep_factors rc (cpuAvgStep rc st)
    refine ⟨fs1 ++ fs2, ?_, ?_⟩
    · rw [he2, he1, List.append_assoc]
    · intro f hf
      rcases List.mem_append.mp hf with hf | hf
      · exact hs1 f hf
      · exact hs2 f hf
  · exact ⟨[], by simp, by simp⟩

lemma memoryAnalysis_factors (rc mem : List MetricSample) (cutoff : ℤ) (st : PredState) :
    ∃ fs, (memoryAnalysis rc mem cutoff st).factors = st.factors ++ fs ∧
      ∀ f ∈ fs, Factor.signalIdx f = 3 := by
  unfold memoryAnalysis
  split_ifs
  · exact ⟨[Factor.memCritical (meanValue (recentOf mem cutoff))], rfl,
      by simp [Factor.signalIdx]⟩
  · exact ⟨[Factor.memHigh (meanValue (recentOf mem cutoff))], rfl,
      by simp [Factor.signalIdx]⟩
  · exact ⟨[], by simp, by simp⟩
  · exact ⟨[], by simp, by simp⟩
  · exact ⟨[], by simp, by simp⟩

lemma mainState_factors (m : CriticalMetrics) (now : ℤ) :
    ∃ f0 f1 f2 f3, (mainState m now).factors = f0 ++ f1 ++ f2 ++ f3 ∧
      (∀ f ∈ f0, Factor.signalIdx f = 0) ∧ (∀ f ∈ f1, Factor.signalIdx f = 1) ∧
      (∀ f ∈ f2, Factor.signalIdx f = 2) ∧ (∀ f ∈ f3, Factor.signalIdx f = 3) := by
  obtain ⟨f0, he0, hs0⟩ := pingAnalysis_factors (recentOf m.ping (window15 now))
    (recentOf m.ping (window5 now)) initState
  obtain ⟨f1, he1, hs1⟩ := latencyAnalysis_factors (recentOf m.latency (window15 now))
    (pingAnalysis (recentOf m.ping (window15 now)) (recentOf m.ping (window5 now)) initState)
  obtain ⟨f2, he2, hs2⟩ := cpuAnalysis_factors (recentOf m.cpu (window15 now))
    (latencyAnalysis (recentOf m.latency (window15 now))
      (pingAnalysis (recentOf m.ping (window15 now)) (recentOf m.ping (window5 now)) initState))
  obtain ⟨f3, he3, hs3⟩ := memoryAnalysis_factors (recentOf m.cpu (window15 now)) m.memory
    (window15 now)
    (cpuAnalysis (recentOf m.cpu (window15 now))
      (latencyAnalysis (recentOf m.latency (window15 now))
        (pingAnalysis (recentOf m.ping (window15 now)) (recentOf m.ping (window5 now)) initState)))
  refine ⟨f0, f1, f2, f3, ?_, hs0, hs1, hs2, hs3⟩
  unfold mainState
  rw [he3, he2, he1, he0]
  simp [initState, List.append_assoc]

lemma pairwise_sig {fs : List Factor} {k : ℕ}
    (h : ∀ f ∈ fs, Factor.signalIdx f = k) :
    fs.Pairwise (fun a b => Factor.signalIdx a ≤ Factor.signalIdx b) := by
  apply List.pairwise_of_forall_mem_list
  intro a ha b hb
  rw [h a ha, h b hb]

lemma riskLevelOf_min100 (s : ℕ) : riskLevelOf (min s 100) = riskLevelOf s := by
  rcases le_or_lt s 100 with h | h
  · rw [min_eq_left h]
  · have h1 : min s 100 = 100 := by omega
    rw [h1]
    unfold riskLevelOf
    have h80s : 80 ≤ s := by omega
    have h80 : (80 : ℕ) ≤ 100 := by omega
    rw [if_pos h80, if_pos h80s]

lemma predict_some_main (m : CriticalMetrics) (now : ℤ) (h : ¬ m.ping.length = 0) :
    predict (some m) now =
      ⟨riskLevelOf (mainState m now).riskScore, min (mainState m now).riskScore 100,
        (mainState m now).etaMinutes, (mainState m now).factors,
        recommendationOf (riskLevelOf (mainState m now).riskScore), now⟩ := by
  simp [predict, h]

/-! ### Monotonicity of the ping failure-rate ladder -/

lemma pingRateScore_mono {a b : List MetricSample}
    (h : pingFailureRate a ≤ pingFailureRate b) :
    pingRateScore a ≤ pingRateScore b := by
  unfold pingRateScore
  split_ifs <;> first
    | omega
    | (exfalso; linarith)

lemma pingConsecScore_congr {a b : List MetricSample}
    (h : pingConsecFires a ↔ pingConsecFires b) :
    pingConsecScore a = pingConsecScore b := by
  unfold pingConsecScore
  exact if_congr h rfl rfl

/-! ### Proposed ETA values all lie in the fixed value set -/

lemma pingRateEtas_mem {x : ℕ} {rp : List MetricSample} (h : x ∈ pingRateEtas rp) :
    x = 2 ∨ x = 5 := by
  unfold pingRateEtas at h
  split_ifs at h <;> simp at h <;> omega

lemma pingConsecEtas_mem {x : ℕ} {vp : List MetricSample} (h : x ∈ pingConsecEtas vp) :
    x = 1 := by
  unfold pingConsecEtas at h
  split_ifs at h <;> simp at h
  omega

lemma latencyAvgEtas_mem {x : ℕ} {rl : List MetricSample} (h : x ∈ latencyAvgEtas rl) :
    x = 10 := by
  unfold latencyAvgEtas at h
  split_ifs at h <;> simp at h
  omega

lemma latencyTrendEtas_mem {x : ℕ} {rl : List MetricSample} (h : x ∈ latencyTrendEtas rl) :
    x = 15 := by
  unfold latencyTrendEtas at h
  split_ifs at h <;> simp at h
  omega

lemma cpuAvgEtas_mem {x : ℕ} {rc : List MetricSample} (h : x ∈ cpuAvgEtas rc) :
    x = 20 := by
  unfold cpuAvgEtas at h
  split_ifs at h <;> simp at h
  omega

lemma proposedEtas_mem (metrics : Option CriticalMetrics) (now : ℤ) (x : ℕ)
    (h : x ∈ proposedEtas metrics now) :
    x ∈ ([1, 2, 5, 10, 15, 20] : List ℕ) := by
  cases metrics with
  | none => simp [proposedEtas] at h
  | some m =>
    simp only [proposedEtas] at h
    by_cases hp : m.ping.length = 0
    · rw [if_pos hp] at h
      simp at h
    · rw [if_neg hp] at h
      rcases List.mem_append.mp h with h | h
      · rcases List.mem_append.mp h with h | h
        · split_ifs at h with hg
          · rcases List.mem_append.mp h with h | h
            · rcases pingRateEtas_mem h with rfl | rfl <;> simp
            · rw [pingConsecEtas_mem h]
              simp
          · simp at h
        · split_ifs at h with hg
          · rcases List.mem_append.mp h with h | h
            · rw [latencyAvgEtas_mem h]
              simp
            · rw [latencyTrendEtas_mem h]
              simp
          · simp at h
      · split_ifs at h with hg
        · rw [cpuAvgEtas_mem h]
          simp
        · simp at h

/-! ## The claims -/

/-- C1: for every input metrics (null or any `CriticalMetrics` value) and any
clock value, the `riskScore` of the result of `predict` is an integer in the
closed interval [0, 100]; the final clamp guarantees this even when every
scoring rule fires (the unclamped sum can reach 200). -/
theorem claim_C1 (metrics : Option CriticalMetrics) (now : ℤ) :
    0 ≤ (predict metrics now).riskScore ∧ (predict metrics now).riskScore ≤ 100 := by
  refine ⟨Nat.zero_le _, ?_⟩
  cases metrics with
  | none => simp [predict, awaitingDataResult]
  | some m =>
    by_cases h : m.ping.length = 0
    · simp [predict, h, awaitingDataResult]
    · rw [predict_some_main m now h]
      exact min_le_right _ _

/-- C2: when the input metrics is null, or its ping series is empty,
`predict` returns exactly the zero-risk default result: level low, score 0,
no ETA, no factors, and the awaiting-data recommendation (the source's
Portuguese UI string, which the spec glosses as "Awaiting data..."). -/
theorem claim_C2 (metrics : Option CriticalMetrics) (now : ℤ)
    (h : metrics = none ∨ ∃ m, metrics = some m ∧ m.ping = []) :
    predict metrics now =
      ⟨RiskLevel.low, 0, none, [], "Aguardando dados...", now⟩ := by
  rcases h with rfl | ⟨m, rfl, hm⟩
  · rfl
  · simp [predict, hm, awaitingDataResult]

/-- Witness for C2 at a concrete non-null input with an empty ping series. -/
theorem claim_C2_witness :
    predict (some exEmptyPing) 900000 =
      ⟨RiskLevel.low, 0, none, [], "Aguardando dados...", 900000⟩ :=
  claim_C2 (some exEmptyPing) 900000 (Or.inr ⟨exEmptyPing, rfl, rfl⟩)

/-- C4: when the CPU sequence filtered to the 15-minute window is empty, the
memory block is a no-op — no memory factor is appended and no memory score is
added — regardless of the memory data (even when the window-filtered memory
sequence is non-empty, as the witness shows). -/
theorem claim_C4 (recentCpu memory : List MetricSample) (recent15min : ℤ)
    (st : PredState) (h : recentCpu = []) :
    memoryAnalysis recentCpu memory recent15min st = st := by
  subst h
  simp [memoryAnalysis]

/-- Witness for C4: empty CPU window, non-empty window-filtered memory. -/
theorem claim_C4_witness :
    0 < (recentOf [⟨800000, (95 : ℚ)⟩] (window15 900000)).length ∧
    memoryAnalysis [] [⟨800000, (95 : ℚ)⟩] (window15 900000) ⟨10, [], some 5⟩ =
      ⟨10, [], some 5⟩ :=
  ⟨by decide, claim_C4 [] [⟨800000, (95 : ℚ)⟩] (window15 900000) ⟨10, [], some 5⟩ rfl⟩

/-- C5: on a non-empty 15-minute ping window with
`failureRate = count(value = 0) / count`, the rate ladder fires exactly one
branch (or none at rate 0): rate ≥ 0.5 adds 60 and proposes ETA 2;
otherwise rate ≥ 0.3 adds 40 and proposes ETA 5; otherwise rate > 0 adds 20
and leaves the ETA untouched; rate = 0 changes nothing. -/
theorem claim_C5 (recentPing : List MetricSample) (st : PredState)
    (hne : recentPing ≠ []) :
    ((0.5 : ℚ) ≤ pingFailureRate recentPing →
      pingRateStep recentPing st =
        { st with riskScore := st.riskScore + 60,
                  factors := st.factors ++ [Factor.pingHighFailure],
                  etaMinutes := some 2 }) ∧
    (pingFailureRate recentPing < 0.5 → (0.3 : ℚ) ≤ pingFailureRate recentPing →
      pingRateStep recentPing st =
        { st with riskScore := st.riskScore + 40,
                  factors := st.factors ++ [Factor.pingIntermittent],
                  etaMinutes := some 5 }) ∧
    (pingFailureRate recentPing < 0.3 → 0 < pingFailureRate recentPing →
      pingRateStep recentPing st =
        { st with riskScore := st.riskScore + 20,
                  factors := st.factors ++ [Factor.pingOccasional] }) ∧
    (pingFailureRate recentPing = 0 → pingRateStep recentPing st = st) := by
  refine ⟨?_, ?_, ?_, ?_⟩
  · intro h1
    simp [pingRateStep, h1]
  · intro h1 h2
    have hn1 : ¬ (0.5 : ℚ) ≤ pingFailureRate recentPing := not_le.mpr h1
    simp [pingRateStep, hn1, h2]
  · intro h1 h2
    have hn05 : ¬ (0.5 : ℚ) ≤ pingFailureRate recentPing :=
      not_le.mpr (h1.trans (by norm_num))
    have hn03 : ¬ (0.3 : ℚ) ≤ pingFailureRate recentPing := not_le.mpr h1
    simp [pingRateStep, hn05, hn03, h2]
  · intro h0
    have hn05 : ¬ (0.5 : ℚ) ≤ pingFailureRate recentPing := by
      rw [h0]; norm_num
    have hn03 : ¬ (0.3 : ℚ) ≤ pingFailureRate recentPing := by
      rw [h0]; norm_num
    have hn0 : ¬ (0 : ℚ) < pingFailureRate recentPing := by
      rw [h0]; norm_num
    simp [pingRateStep, hn05, hn03, hn0]

/-- Witness for C5: two samples with one failure, rate 1/2, top branch. -/
theorem claim_C5_witness :
    (0.5 : ℚ) ≤ pingFailureRate [⟨610000, 0⟩, ⟨620000, 1⟩] ∧
    pingRateStep [⟨610000, 0⟩, ⟨620000, 1⟩] initState =
      ⟨60, [Factor.pingHighFailure], some 2⟩ := by
  have hrate : (0.5 : ℚ) ≤ pingFailureRate [⟨610000, 0⟩, ⟨620000, 1⟩] := by
    norm_num [pingFailureRate, List.filter]
  have h := (claim_C5 [⟨610000, 0⟩, ⟨620000, 1⟩] initState (by simp)).1 hrate
  exact ⟨hrate, h.trans (by rfl)⟩

/-- C6: with at least 3 samples in the 5-minute ping window whose last three
(chronologically) are all failures, the consecutive-failure rule adds 30,
appends its factor and forces the ETA down to at most 1 — to
`min(existing, 1)` when a (positive) ETA exists, to 1 when none does; with
fewer than 3 samples or any recent success, the rule contributes nothing. -/
theorem claim_C6 (veryRecentPing : List MetricSample) (st : PredState) :
    (3 ≤ veryRecentPing.length →
      (veryRecentPing.drop (veryRecentPing.length - 3)).all
          (fun p => decide (p.value = 0)) = true →
      pingConsecStep veryRecentPing st =
          { st with riskScore := st.riskScore + 30,
                    factors := st.factors ++ [Factor.pingConsecutive],
                    etaMinutes := some (min (etaOrDefault st.etaMinutes 1) 1) } ∧
        (st.etaMinutes = none → (pingConsecStep veryRecentPing st).etaMinutes = some 1) ∧
        (∀ k, st.etaMinutes = some k → 0 < k →
          (pingConsecStep veryRecentPing st).etaMinutes = some (min k 1)) ∧
        ∀ n, (pingConsecStep veryRecentPing st).etaMinutes = some n → n ≤ 1) ∧
    ((¬ 3 ≤ veryRecentPing.length ∨
        ¬ (veryRecentPing.drop (veryRecentPing.length - 3)).all
            (fun p => decide (p.value = 0)) = true) →
      pingConsecStep veryRecentPing st = st) := by
  constructor
  · intro h3 hall
    have he : pingConsecStep veryRecentPing st =
        { st with riskScore := st.riskScore + 30,
                  factors := st.factors ++ [Factor.pingConsecutive],
                  etaMinutes := some (min (etaOrDefault st.etaMinutes 1) 1) } := by
      simp [pingConsecStep, h3, hall]
    refine ⟨he, ?_, ?_, ?_⟩
    · intro h0
      rw [he]
      simp [etaOrDefault, h0]
    · intro k hk hkpos
      rw [he]
      simp [etaOrDefault, hk, hkpos.ne']
    · intro n hn
      rw [he] at hn
      simp only [Option.some.injEq] at hn
      have hle := Nat.min_le_right (etaOrDefault st.etaMinutes 1) 1
      omega
  · intro h
    rcases h with h | h
    · simp [pingConsecStep, h]
    · by_cases h3 : 3 ≤ veryRecentPing.length <;> simp [pingConsecStep, h3, h]

/-- Witness for C6: three consecutive in-window failures and no prior ETA. -/
theorem claim_C6_witness :
    pingConsecStep [⟨610000, 0⟩, ⟨611000, 0⟩, ⟨612000, 0⟩] initState =
      ⟨30, [Factor.pingConsecutive], some 1⟩ := by
  have h := (claim_C6 [⟨610000, 0⟩, ⟨611000, 0⟩, ⟨612000, 0⟩] initState).1
    (by decide) (by decide)
  exact h.1.trans (by rfl)

/-- C3: the ETA of the result is exactly the minimum over the ETAs proposed
by the rules that triggered (ping-rate 2 or 5, consecutive-failure 1,
average-latency 10, latency-trend 15, cpu 20, as recorded in
`proposedEtas`), and it is null exactly when no triggered rule proposed an
ETA. -/
theorem claim_C3 (metrics : Option CriticalMetrics) (now : ℤ) :
    ((predict metrics now).etaMinutes = none ↔ proposedEtas metrics now = []) ∧
    ∀ v, (predict metrics now).etaMinutes = some v →
      v ∈ proposedEtas metrics now ∧ ∀ x ∈ proposedEtas metrics now, v ≤ x := by
  constructor
  · rw [predict_eta]
    exact minListN_eq_none_iff _
  · intro v hv
    rw [predict_eta] at hv
    exact minListN_spec _ v hv

/-- Witness for C3: a concrete input whose ETA is 1, the minimum proposal. -/
theorem claim_C3_witness :
    (predict (some exPingCritical) 900000).etaMinutes = some 1 ∧
    1 ∈ proposedEtas (some exPingCritical) 900000 := by
  have he : (predict (some exPingCritical) 900000).etaMinutes = some 1 := by
    simp only [predict, mainState, pingAnalysis, pingRateStep, pingConsecStep,
      latencyAnalysis, latencyAvgStep, latencyMaxStep, latencyTrendStep,
      cpuAnalysis, cpuAvgStep, cpuMaxStep, memoryAnalysis, pingFailureRate,
      meanValue, maxValue, etaOrDefault, etaMinUpdate, initState, riskLevelOf,
      recommendationOf, awaitingDataResult, exPingCritical, recentOf, window15,
      window5, List.filter]
    norm_num
  exact ⟨he, ((claim_C3 (some exPingCritical) 900000).2 1 he).1⟩

/-- C7: the risk level of the result matches the fixed threshold ladder
(≥ 80 critical, ≥ 50 high, ≥ 25 medium, else low) applied to the returned,
clamped risk score — the code classifies on the pre-clamp score, which
agrees with the spec's reading on the clamped one. -/
theorem claim_C7 (metrics : Option CriticalMetrics) (now : ℤ) :
    (predict metrics now).riskLevel = classifySpec (predict metrics now).riskScore := by
  have hee : ∀ s, classifySpec s = riskLevelOf s := fun s => rfl
  cases metrics with
  | none => rfl
  | some m =>
    by_cases h : m.ping.length = 0
    · simp [predict, h, awaitingDataResult, classifySpec]
    · rw [predict_some_main m now h]
      show riskLevelOf (mainState m now).riskScore =
        classifySpec (min (mainState m now).riskScore 100)
      rw [hee, riskLevelOf_min100]

/-- C9: the factor list is ordered by signal — every ping-derived factor
precedes every latency-derived factor, which precedes every cpu-derived
factor, which precedes every memory-derived factor. -/
theorem claim_C9 (metrics : Option CriticalMetrics) (now : ℤ) :
    ((predict metrics now).factors).Pairwise
      (fun a b => Factor.signalIdx a ≤ Factor.signalIdx b) := by
  cases metrics with
  | none => simp [predict, awaitingDataResult]
  | some m =>
    by_cases h : m.ping.length = 0
    · simp [predict, h, awaitingDataResult]
    · rw [predict_some_main m now h]
      show ((mainState m now).factors).Pairwise _
      obtain ⟨f0, f1, f2, f3, he, hs0, hs1, hs2, hs3⟩ := mainState_factors m now
      rw [he]
      apply List.pairwise_append.mpr
      refine ⟨?_, pairwise_sig hs3, ?_⟩
      · apply List.pairwise_append.mpr
        refine ⟨?_, pairwise_sig hs2, ?_⟩
        · apply List.pairwise_append.mpr
          refine ⟨pairwise_sig hs0, pairwise_sig hs1, ?_⟩
          intro a ha b hb
          rw [hs0 a ha, hs1 b hb]
          omega
        · intro a ha b hb
          rcases List.mem_append.mp ha with ha | ha
          · rw [hs0 a ha, hs2 b hb]
            omega
          · rw [hs1 a ha, hs2 b hb]
            omega
      · intro a ha b hb
        rw [hs3 b hb]
        rcases List.mem_append.mp ha with ha | ha
        · rcases List.mem_append.mp ha with ha | ha
          · rw [hs0 a ha]
            omega
          · rw [hs1 a ha]
            omega
        · rw [hs2 a ha]
          omega

/-- C10 (implicit): whenever the result's ETA is non-null it is one of
{1, 2, 5, 10, 15, 20}; in particular `predict` never returns ETA 0. -/
theorem claim_C10 (metrics : Option CriticalMetrics) (now : ℤ) (n : ℕ)
    (h : (predict metrics now).etaMinutes = some n) :
    n ∈ ([1, 2, 5, 10, 15, 20] : List ℕ) ∧ n ≠ 0 := by
  rw [predict_eta] at h
  have hmem := (minListN_spec _ n h).1
  have hset := proposedEtas_mem metrics now n hmem
  refine ⟨hset, ?_⟩
  simp at hset
  omega

/-- Witness for C10 at a concrete input whose ETA is 1. -/
theorem claim_C10_witness :
    (predict (some exPingCritical) 900000).etaMinutes = some 1 ∧
    1 ∈ ([1, 2, 5, 10, 15, 20] : List ℕ) ∧ (1 : ℕ) ≠ 0 := by
  have he : (predict (some exPingCritical) 900000).etaMinutes = some 1 := by
    simp only [predict, mainState, pingAnalysis, pingRateStep, pingConsecStep,
      latencyAnalysis, latencyAvgStep, latencyMaxStep, latencyTrendStep,
      cpuAnalysis, cpuAvgStep, cpuMaxStep, memoryAnalysis, pingFailureRate,
      meanValue, maxValue, etaOrDefault, etaMinUpdate, initState, riskLevelOf,
      recommendationOf, awaitingDataResult, exPingCritical, recentOf, window15,
      window5, List.filter]
    norm_num
  exact ⟨he, claim_C10 (some exPingCritical) 900000 1 he⟩

/-- C8 counterexample: two inputs identical in latency, cpu and memory
(all empty), the second with the strictly higher 15-minute ping failure
rate (0.2 versus 0.4), yet the second's risk score is strictly lower
(40 < 50): the lower-rate input additionally trips the consecutive-failure
rule, which also belongs to the ping signal. -/
theorem claim_C8_counterexample :
    exRate02Consec.latency = exRate04NoConsec.latency ∧
    exRate02Consec.cpu = exRate04NoConsec.cpu ∧
    exRate02Consec.memory = exRate04NoConsec.memory ∧
    pingFailureRate (recentOf exRate02Consec.ping (window15 900000)) = 1 / 5 ∧
    pingFailureRate (recentOf exRate04NoConsec.ping (window15 900000)) = 2 / 5 ∧
    (predict (some exRate04NoConsec) 900000).riskScore <
      (predict (some exRate02Consec) 900000).riskScore := by
  refine ⟨rfl, rfl, rfl, ?_, ?_, ?_⟩
  · norm_num [pingFailureRate, recentOf, window15, exRate02Consec, List.filter]
  · norm_num [pingFailureRate, recentOf, window15, exRate04NoConsec, List.filter]
  · simp only [predict, mainState, pingAnalysis, pingRateStep, pingConsecStep,
      latencyAnalysis, latencyAvgStep, latencyMaxStep, latencyTrendStep,
      cpuAnalysis, cpuAvgStep, cpuMaxStep, memoryAnalysis, pingFailureRate,
      meanValue, maxValue, etaOrDefault, etaMinUpdate, initState, riskLevelOf,
      recommendationOf, awaitingDataResult, exRate02Consec, exRate04NoConsec,
      recentOf, window15, window5, List.filter]
    norm_num

/-- C8 (amended): increasing the 15-minute ping failure rate, with latency,
cpu and memory held fixed, never decreases the risk score — provided the
consecutive-failure rule's firing status over the 5-minute ping window is
also unchanged.  (The unamended claim fails because that rule belongs to the
ping signal and can flip when the ping sequence changes; see the
counterexample.) -/
theorem claim_C8 (m1 m2 : CriticalMetrics) (now : ℤ)
    (hlat : m1.latency = m2.latency) (hcpu : m1.cpu = m2.cpu)
    (hmem : m1.memory = m2.memory)
    (hp1 : ¬ m1.ping.length = 0) (hp2 : ¬ m2.ping.length = 0)
    (hw1 : (recentOf m1.ping (window15 now)).length ≠ 0)
    (hw2 : (recentOf m2.ping (window15 now)).length ≠ 0)
    (hcons : pingConsecFires (recentOf m1.ping (window5 now)) ↔
      pingConsecFires (recentOf m2.ping (window5 now)))
    (hrate : pingFailureRate (recentOf m1.ping (window15 now)) ≤
      pingFailureRate (recentOf m2.ping (window15 now))) :
    (predict (some m1) now).riskScore ≤ (predict (some m2) now).riskScore := by
  rw [predict_some_main m1 now hp1, predict_some_main m2 now hp2]
  show min (mainState m1 now).riskScore 100 ≤ min (mainState m2 now).riskScore 100
  apply min_le_min _ (le_refl 100)
  rw [mainState_score, mainState_score, hlat, hcpu, hmem]
  have hping : pingScore (recentOf m1.ping (window15 now)) (recentOf m1.ping (window5 now)) ≤
      pingScore (recentOf m2.ping (window15 now)) (recentOf m2.ping (window5 now)) := by
    unfold pingScore
    rw [if_pos (Nat.pos_of_ne_zero hw1), if_pos (Nat.pos_of_ne_zero hw2)]
    have h1 := pingRateScore_mono hrate
    have h2 := pingConsecScore_congr hcons
    omega
  omega

/-- Witness for the amended C8: rates 0.2 versus 0.4, the consecutive rule
firing in neither input; the scores are 20 and 40. -/
theorem claim_C8_witness :
    (predict (some exRate02) 900000).riskScore ≤
      (predict (some exRate04) 900000).riskScore :=
  claim_C8 exRate02 exRate04 900000 rfl rfl rfl (by decide) (by decide)
    (by decide) (by decide) (by decide)
    (by norm_num [pingFailureRate, recentOf, window15, exRate02, exRate04, List.filter])
